import Mathlib

/-!
Shallow embedding of `src/keymaster_enforcement.cpp` (TwiceOS/system_keymaster):
the keymaster authorization-enforcement core.  Machine integers are modelled
as `Nat` (with explicit bounds or modular arithmetic where the C code relies
on a fixed width), the tag/value `AuthorizationSet` as a list of entries, the
two bounded usage tables as lists with an explicit capacity, and the
platform-supplied virtual methods of `KeymasterEnforcement` (clock, date
checks, token-signature validation) as an explicit environment of functions,
matching the injected-capability design the header prescribes for them.
-/

namespace Keymaster

/-- The keymaster tag enumeration: exactly the tags the enforcement code
dispatches on (`keymaster_tag_t` members appearing in the source). -/
inductive KmTag where
  | invalid
  | purpose
  | algorithm
  | keySize
  | blockMode
  | digest
  | macLength
  | padding
  | callerNonce
  | nonce
  | activeDatetime
  | originationExpireDatetime
  | usageExpireDatetime
  | minSecondsBetweenOps
  | maxUsesPerBoot
  | allUsers
  | userId
  | userSecureId
  | noAuthRequired
  | userAuthType
  | authTimeout
  | allApplications
  | applicationId
  | applicationData
  | creationDatetime
  | origin
  | rollbackResistant
  | rootOfTrust
  | associatedData
  | authToken
  | blobUsageRequirements
  | bootloaderOnly
  | rsaPublicExponent
  | paddingOld
  | digestOld
  deriving DecidableEq, Repr

/-- One `keymaster_key_param_t`: a tag plus the union payload.  Each C use
site reads the member matching its tag (enumerated / 32-bit integer / 64-bit
integer / date / blob), so we carry all payload fields. -/
structure KmParam where
  tag : KmTag
  enumerated : Nat := 0
  integer : Nat := 0
  long_integer : Nat := 0
  date_time : Nat := 0
  blob : List Nat := []
  deriving DecidableEq, Repr

/-- The keymaster error codes returned by this translation unit. -/
inductive KmError where
  | ok
  | incompatiblePurpose
  | unsupportedPurpose
  | keyNotYetValid
  | keyExpired
  | keyRateLimitExceeded
  | keyMaxOpsExceeded
  | invalidKeyBlob
  | keyUserNotAuthenticated
  | callerNonceProhibited
  | tooManyOperations
  deriving DecidableEq, Repr

def KM_PURPOSE_ENCRYPT : Nat := 0
def KM_PURPOSE_DECRYPT : Nat := 1
def KM_PURPOSE_SIGN : Nat := 2
def KM_PURPOSE_VERIFY : Nat := 3

def KM_ALGORITHM_RSA : Nat := 1
def KM_ALGORITHM_EC : Nat := 3

def UINT32_MAX : Nat := 4294967295

/-- `AuthorizationSet::GetTagValue` for enum/int valued tags: the payload of
the first entry carrying the tag. -/
def getTagEnum (s : List KmParam) (t : KmTag) : Option Nat :=
  (s.find? (fun p => decide (p.tag = t))).map (fun p => p.enumerated)

/-- `AuthorizationSet::GetTagValue` for the 32-bit integer payload. -/
def getTagInt (s : List KmParam) (t : KmTag) : Option Nat :=
  (s.find? (fun p => decide (p.tag = t))).map (fun p => p.integer)

/-- `AuthorizationSet::GetTagValue` for blob-valued tags. -/
def getTagBlob (s : List KmParam) (t : KmTag) : Option (List Nat) :=
  (s.find? (fun p => decide (p.tag = t))).map (fun p => p.blob)

/-- `AuthorizationSet::find(tag)`: index of the first entry with the tag,
`none` standing for the C sentinel `-1`. -/
def findTag (s : List KmParam) (t : KmTag) : Option Nat :=
  s.findIdx? (fun p => decide (p.tag = t))

/-- `AuthorizationSet::Contains(tag, value)` for enum-valued tags. -/
def containsEnum (s : List KmParam) (t : KmTag) (v : Nat) : Bool :=
  s.any (fun p => decide (p.tag = t ∧ p.enumerated = v))

/-- Source `is_public_key_algorithm` (lines 34-38): the set carries an
ALGORITHM tag whose value is RSA or EC. -/
def is_public_key_algorithm (auth_set : List KmParam) : Bool :=
  match getTagEnum auth_set KmTag.algorithm with
  | none => false
  | some algorithm =>
      decide (algorithm = KM_ALGORITHM_RSA ∨ algorithm = KM_ALGORITHM_EC)

/-- Source `authorized_purpose` (lines 40-58): the switch over the requested
purpose, written as the equality dispatch the C switch performs. -/
def authorized_purpose (purpose : Nat) (auth_set : List KmParam) : KmError :=
  if purpose = KM_PURPOSE_VERIFY ∨ purpose = KM_PURPOSE_ENCRYPT then
    if is_public_key_algorithm auth_set || containsEnum auth_set KmTag.purpose purpose then
      KmError.ok
    else KmError.incompatiblePurpose
  else if purpose = KM_PURPOSE_SIGN ∨ purpose = KM_PURPOSE_DECRYPT then
    if containsEnum auth_set KmTag.purpose purpose then KmError.ok
    else KmError.incompatiblePurpose
  else KmError.unsupportedPurpose

/-- Source `is_origination_purpose` (lines 60-62). -/
def is_origination_purpose (purpose : Nat) : Bool :=
  decide (purpose = KM_PURPOSE_ENCRYPT ∨ purpose = KM_PURPOSE_SIGN)

/-- Source `is_usage_purpose` (lines 64-66). -/
def is_usage_purpose (purpose : Nat) : Bool :=
  decide (purpose = KM_PURPOSE_DECRYPT ∨ purpose = KM_PURPOSE_VERIFY)

/-- Source `can_skip_authentication` (lines 68-73): during begin with
auth-per-operation keys no authentication is required yet. -/
def can_skip_authentication (is_begin_operation is_auth_per_op_key : Bool) : Bool :=
  is_begin_operation && is_auth_per_op_key

/-- The packed `hw_auth_token_t` structure (hardware/hw_auth_token.h):
version (1 byte), challenge / user_id / authenticator_id (8 bytes each),
authenticator_type (4 bytes, network order), timestamp (8 bytes),
hmac (32 bytes).  Total packed size is 69 bytes. -/
structure HwAuthToken where
  version : Nat
  challenge : Nat
  user_id : Nat
  authenticator_id : Nat
  authenticator_type : Nat
  timestamp : Nat
  deriving DecidableEq, Repr

def hw_auth_token_size : Nat := 69

def HW_AUTH_TOKEN_VERSION : Nat := 0

/-- Little-endian value of a byte list (host byte order of the target). -/
def le_bytes (bs : List Nat) : Nat :=
  bs.foldr (fun b acc => b % 256 + 256 * acc) 0

/-- The `memcpy` of a 69-byte blob into a packed `hw_auth_token_t`:
each multi-byte field is read from the blob in host (little-endian) order.
The hmac bytes are not inspected by this translation unit. -/
def parse_hw_auth_token (b : List Nat) : HwAuthToken :=
  { version := ((b.take 1).headI) % 256
    challenge := le_bytes ((b.drop 1).take 8)
    user_id := le_bytes ((b.drop 9).take 8)
    authenticator_id := le_bytes ((b.drop 17).take 8)
    authenticator_type := le_bytes ((b.drop 25).take 4)
    timestamp := le_bytes ((b.drop 29).take 8) }

/-- `ntoh` on a 32-bit value: byte swap from network to host order. -/
def ntoh32 (x : Nat) : Nat :=
  (x % 256) * 16777216 + (x / 256 % 256) * 65536 +
    (x / 65536 % 256) * 256 + (x / 16777216 % 256)

/-- The platform-supplied virtual methods of `KeymasterEnforcement`
(declared in the header, implemented per platform): the seconds clock and
the date/freshness/signature judgements.  Modelled as injected functions,
as the design notes of the specification prescribe. -/
structure Env where
  current_time : Nat
  activation_date_valid : Nat → Bool
  expiration_date_passed : Nat → Bool
  auth_token_timed_out : HwAuthToken → Nat → Bool
  validate_token_signature : HwAuthToken → Bool

/-- One entry of `AccessTimeMap::last_access_list_`. -/
structure AccessTime where
  keyid : Nat
  access_time : Nat
  timeout : Nat
  deriving DecidableEq, Repr

/-- `KeymasterEnforcement::AccessTimeMap`: bounded list plus capacity. -/
structure AccessTimeMap where
  max_size : Nat
  last_access_list : List AccessTime
  deriving DecidableEq, Repr

/-- One entry of `AccessCountMap::access_count_list_`. -/
structure AccessCount where
  keyid : Nat
  access_count : Nat
  deriving DecidableEq, Repr

/-- `KeymasterEnforcement::AccessCountMap`: bounded list plus capacity. -/
structure AccessCountMap where
  max_size : Nat
  access_count_list : List AccessCount
  deriving DecidableEq, Repr

/-- `AccessTimeMap::LastKeyAccessTime` (lines 356-364): the stored access
time of the first entry with the key id, if any. -/
def LastKeyAccessTime (m : AccessTimeMap) (keyid : Nat) : Option Nat :=
  (m.last_access_list.find? (fun e => decide (e.keyid = keyid))).map
    (fun e => e.access_time)

/-- Unsigned 32-bit subtraction, as C computes `a - b` on `uint32_t`. -/
def usub32 (a b : Nat) : Nat :=
  (a % 4294967296 + 4294967296 - b % 4294967296) % 4294967296

/-- The loop of `AccessTimeMap::UpdateKeyAccessTime` (lines 368-381): scan
for the key id, erasing on the way every entry whose 32-bit age
`current_time - access_time` has reached its own timeout; on a hit, refresh
the timestamp in place and stop.  Returns the found flag and the list as
the loop leaves it. -/
def updateScan (keyid current_time : Nat) : List AccessTime → Bool × List AccessTime
  | [] => (false, [])
  | e :: rest =>
    if e.keyid = keyid then
      (true, { e with access_time := current_time } :: rest)
    else if usub32 current_time e.access_time ≥ e.timeout then
      updateScan keyid current_time rest
    else
      let r := updateScan keyid current_time rest
      (r.1, e :: r.2)

/-- `AccessTimeMap::UpdateKeyAccessTime` (lines 366-392): refresh on a hit;
otherwise insert a fresh entry unless the list, after the expiry sweep, is
still at capacity. -/
def UpdateKeyAccessTime (m : AccessTimeMap) (keyid current_time timeout : Nat) :
    Bool × AccessTimeMap :=
  let r := updateScan keyid current_time m.last_access_list
  if r.1 then (true, { m with last_access_list := r.2 })
  else if r.2.length ≥ m.max_size then (false, { m with last_access_list := r.2 })
  else
    (true, { m with last_access_list :=
      { keyid := keyid, access_time := current_time, timeout := timeout } :: r.2 })

/-- `AccessCountMap::KeyAccessCount` (lines 394-401). -/
def KeyAccessCount (m : AccessCountMap) (keyid : Nat) : Option Nat :=
  (m.access_count_list.find? (fun e => decide (e.keyid = keyid))).map
    (fun e => e.access_count)

/-- The loop of `AccessCountMap::IncrementKeyAccessCount` (lines 408-413):
on a hit, increment unless the 32-bit counter is already at its maximum and
report the updated list; `none` when the key id is absent. -/
def incrementScan (keyid : Nat) : List AccessCount → Option (List AccessCount)
  | [] => none
  | e :: rest =>
    if e.keyid = keyid then
      some ((if e.access_count < UINT32_MAX then
               { e with access_count := e.access_count + 1 } else e) :: rest)
    else
      match incrementScan keyid rest with
      | none => none
      | some rest2 => some (e :: rest2)

/-- `AccessCountMap::IncrementKeyAccessCount` (lines 407-423). -/
def IncrementKeyAccessCount (m : AccessCountMap) (keyid : Nat) :
    Bool × AccessCountMap :=
  match incrementScan keyid m.access_count_list with
  | some l => (true, { m with access_count_list := l })
  | none =>
    if m.access_count_list.length ≥ m.max_size then (false, m)
    else
      (true, { m with access_count_list :=
        { keyid := keyid, access_count := 1 } :: m.access_count_list })

/-- `KeymasterEnforcement::MinTimeBetweenOpsPassed` (lines 265-270): no
recorded access passes trivially; otherwise the limit must not exceed the
elapsed time, computed in 64-bit signed arithmetic. -/
def MinTimeBetweenOpsPassed (env : Env) (m : AccessTimeMap)
    (min_time_between keyid : Nat) : Bool :=
  match LastKeyAccessTime m keyid with
  | none => true
  | some last_access_time =>
      decide ((min_time_between : Int) ≤ (env.current_time : Int) - (last_access_time : Int))

/-- `KeymasterEnforcement::MaxUsesPerBootNotExceeded` (lines 272-277): no
recorded count passes trivially; otherwise the count must still be below
the limit. -/
def MaxUsesPerBootNotExceeded (m : AccessCountMap) (keyid max_uses : Nat) : Bool :=
  match KeyAccessCount m keyid with
  | none => true
  | some key_access_count => decide (key_access_count < max_uses)

/-- `KeymasterEnforcement::AuthTokenMatches` (lines 279-354).  The index
arguments model the C `int` indices with `-1` as `none`; they are produced
by the caller's pre-scan and index into `auth_set`.  An out-of-range index
yields `false`, mirroring the guarded accesses of the source. -/
def AuthTokenMatches (env : Env) (auth_set operation_params : List KmParam)
    (user_secure_id : Nat) (auth_type_index auth_timeout_index : Option Nat)
    (op_handle : Nat) (is_begin_operation : Bool) : Bool :=
  match getTagBlob operation_params KmTag.authToken with
  | none => false
  | some auth_token_blob =>
    if auth_token_blob.length ≠ hw_auth_token_size then false
    else
      let auth_token := parse_hw_auth_token auth_token_blob
      if auth_token.version ≠ HW_AUTH_TOKEN_VERSION then false
      else if env.validate_token_signature auth_token = false then false
      else if auth_timeout_index = none ∧ op_handle ≠ 0 ∧ op_handle ≠ auth_token.challenge then
        false
      else if user_secure_id ≠ auth_token.user_id ∧ user_secure_id ≠ auth_token.authenticator_id then
        false
      else
        match auth_type_index with
        | none => false
        | some ti =>
          match auth_set[ti]? with
          | none => false
          | some type_param =>
            if type_param.tag ≠ KmTag.userAuthType then false
            else if Nat.land type_param.integer (ntoh32 auth_token.authenticator_type) = 0 then
              false
            else
              match auth_timeout_index, is_begin_operation with
              | some wi, true =>
                match auth_set[wi]? with
                | none => false
                | some timeout_param =>
                  if timeout_param.tag ≠ KmTag.authTimeout then false
                  else if env.auth_token_timed_out auth_token timeout_param.integer then false
                  else true
              | _, _ => true

/-- The pre-scan of `AuthorizeOperation` (lines 82-99): positions of the
AUTH_TIMEOUT, USER_AUTH_TYPE and NO_AUTH_REQUIRED entries, each case
overwriting on every occurrence so the last occurrence wins; `none` is the
C sentinel `-1`.  Result order: (timeout, type, no-auth-required). -/
def preScanFrom (pos : Nat) (acc : Option Nat × Option Nat × Option Nat) :
    List KmParam → Option Nat × Option Nat × Option Nat
  | [] => acc
  | p :: rest =>
    preScanFrom (pos + 1)
      (if p.tag = KmTag.authTimeout then (some pos, acc.2.1, acc.2.2)
       else if p.tag = KmTag.userAuthType then (acc.1, some pos, acc.2.2)
       else if p.tag = KmTag.noAuthRequired then (acc.1, acc.2.1, some pos)
       else acc) rest

def preScan (auth_set : List KmParam) : Option Nat × Option Nat × Option Nat :=
  preScanFrom 0 (none, none, none) auth_set

/-- The running flags of the main tag loop of `AuthorizeOperation`
(lines 106-111). -/
structure ScanFlags where
  min_ops_timeout : Nat := UINT32_MAX
  update_access_count : Bool := false
  found_caller_nonce : Bool := false
  authentication_required : Bool := false
  auth_token_matched : Bool := false
  deriving DecidableEq, Repr

/-- The two usage tables, the only state of `KeymasterEnforcement` that a
call can mutate. -/
structure KmState where
  access_time_map : AccessTimeMap
  access_count_map : AccessCountMap
  deriving DecidableEq, Repr

/-- One iteration of the tag loop of `AuthorizeOperation` (lines 113-213):
the switch over `param.tag`, written as the equality dispatch the C switch
performs.  Grouped no-effect cases fall to the final `ok`. -/
def scanParam (env : Env) (purpose keyid : Nat) (auth_set operation_params : List KmParam)
    (op_handle : Nat) (is_begin_operation : Bool) (idx : Option Nat × Option Nat × Option Nat)
    (st : KmState) (param : KmParam) (fl : ScanFlags) : Except KmError ScanFlags :=
  if param.tag = KmTag.paddingOld ∨ param.tag = KmTag.digestOld then .ok fl
  else if param.tag = KmTag.activeDatetime then
    if env.activation_date_valid param.date_time then .ok fl
    else .error KmError.keyNotYetValid
  else if param.tag = KmTag.originationExpireDatetime then
    if is_origination_purpose purpose && env.expiration_date_passed param.date_time then
      .error KmError.keyExpired
    else .ok fl
  else if param.tag = KmTag.usageExpireDatetime then
    if is_usage_purpose purpose && env.expiration_date_passed param.date_time then
      .error KmError.keyExpired
    else .ok fl
  else if param.tag = KmTag.minSecondsBetweenOps then
    if MinTimeBetweenOpsPassed env st.access_time_map param.integer keyid then
      .ok { fl with min_ops_timeout := param.integer }
    else .error KmError.keyRateLimitExceeded
  else if param.tag = KmTag.maxUsesPerBoot then
    if MaxUsesPerBootNotExceeded st.access_count_map keyid param.integer then
      .ok { fl with update_access_count := true }
    else .error KmError.keyMaxOpsExceeded
  else if param.tag = KmTag.userSecureId then
    if idx.2.2 ≠ none then .error KmError.invalidKeyBlob
    else if ¬ can_skip_authentication is_begin_operation idx.1.isNone
            ∨ findTag operation_params KmTag.authToken ≠ none then
      if AuthTokenMatches env auth_set operation_params param.long_integer
           idx.2.1 idx.1 op_handle is_begin_operation then
        .ok { fl with authentication_required := true, auth_token_matched := true }
      else .ok { fl with authentication_required := true }
    else .ok fl
  else if param.tag = KmTag.callerNonce then .ok { fl with found_caller_nonce := true }
  else if param.tag = KmTag.invalid ∨ param.tag = KmTag.authToken
          ∨ param.tag = KmTag.rootOfTrust ∨ param.tag = KmTag.applicationData then
    .error KmError.invalidKeyBlob
  else if param.tag = KmTag.bootloaderOnly then .error KmError.invalidKeyBlob
  else .ok fl

/-- The tag loop itself: fold `scanParam` over the policy, short-circuiting
on the first error, exactly as the C `return` statements do. -/
def authScan (env : Env) (purpose keyid : Nat) (auth_set operation_params : List KmParam)
    (op_handle : Nat) (is_begin_operation : Bool) (idx : Option Nat × Option Nat × Option Nat)
    (st : KmState) : List KmParam → ScanFlags → Except KmError ScanFlags
  | [], fl => .ok fl
  | p :: rest, fl =>
    match scanParam env purpose keyid auth_set operation_params op_handle
        is_begin_operation idx st p fl with
    | .error e => .error e
    | .ok fl2 => authScan env purpose keyid auth_set operation_params op_handle
        is_begin_operation idx st rest fl2

/-- The access-count commit of `AuthorizeOperation` (lines 229-232). -/
def commitCount (keyid : Nat) (fl : ScanFlags) (st : KmState) : KmError × KmState :=
  if fl.update_access_count then
    let r := IncrementKeyAccessCount st.access_count_map keyid
    if r.1 = false then (KmError.tooManyOperations, { st with access_count_map := r.2 })
    else (KmError.ok, { st with access_count_map := r.2 })
  else (KmError.ok, st)

/-- The deferred table commits of `AuthorizeOperation` (lines 223-232):
access-time table first (only when a min-seconds limit was recorded, the
`UINT32_MAX` initial value being the sentinel for absence), then the
access-count table. -/
def commitTables (env : Env) (keyid : Nat) (fl : ScanFlags) (st : KmState) :
    KmError × KmState :=
  if fl.min_ops_timeout ≠ UINT32_MAX then
    let r := UpdateKeyAccessTime st.access_time_map keyid env.current_time fl.min_ops_timeout
    if r.1 = false then (KmError.tooManyOperations, { st with access_time_map := r.2 })
    else commitCount keyid fl { st with access_time_map := r.2 }
  else commitCount keyid fl st

/-- `KeymasterEnforcement::AuthorizeOperation` (lines 75-235): pre-scan,
purpose check, tag loop, post-loop authentication and nonce checks, then
the deferred table commits.  Returns the error code together with the
tables as the call leaves them. -/
def AuthorizeOperation (env : Env) (purpose keyid : Nat)
    (auth_set operation_params : List KmParam) (op_handle : Nat)
    (is_begin_operation : Bool) (st : KmState) : KmError × KmState :=
  let idx := preScan auth_set
  let e0 := authorized_purpose purpose auth_set
  if e0 ≠ KmError.ok then (e0, st)
  else
    match authScan env purpose keyid auth_set operation_params op_handle
        is_begin_operation idx st auth_set {} with
    | .error e => (e, st)
    | .ok fl =>
      if fl.authentication_required && !fl.auth_token_matched then
        (KmError.keyUserNotAuthenticated, st)
      else if !fl.found_caller_nonce && (findTag operation_params KmTag.nonce).isSome then
        (KmError.callerNonceProhibited, st)
      else commitTables env keyid fl st

/-! ## Concrete test fixtures used by the claim witnesses and counterexamples -/

/-- An environment with a fixed clock in which every date and freshness
check passes and every token signature verifies. -/
def testEnv (t : Nat) : Env :=
  { current_time := t
    activation_date_valid := fun _ => true
    expiration_date_passed := fun _ => false
    auth_token_timed_out := fun _ _ => false
    validate_token_signature := fun _ => true }

/-- A policy combining a rate limit and a use-count limit, together with an
explicit SIGN purpose grant. -/
def policy_both : List KmParam :=
  [ { tag := KmTag.purpose, enumerated := KM_PURPOSE_SIGN },
    { tag := KmTag.minSecondsBetweenOps, integer := 5 },
    { tag := KmTag.maxUsesPerBoot, integer := 3 } ]

/-- A state whose count table is full with an entry for a different key and
whose time table is empty. -/
def st_count_full : KmState :=
  { access_time_map := { max_size := 4, last_access_list := [] }
    access_count_map :=
      { max_size := 1, access_count_list := [{ keyid := 9, access_count := 1 }] } }

/-- A policy with an explicit SIGN purpose grant and a max-uses-per-boot
constraint of `n`. -/
def policy_max_uses (n : Nat) : List KmParam :=
  [ { tag := KmTag.purpose, enumerated := KM_PURPOSE_SIGN },
    { tag := KmTag.maxUsesPerBoot, integer := n } ]

/-- A state with empty time table and the given count-table contents, both
with capacity `cap`. -/
def countState (cap : Nat) (l : List AccessCount) : KmState :=
  { access_time_map := { max_size := cap, last_access_list := [] }
    access_count_map := { max_size := cap, access_count_list := l } }

/-- One begin-operation call for a key limited to `n` uses per boot. -/
def maxUsesCall (env : Env) (keyid n : Nat) (st : KmState) : KmError × KmState :=
  AuthorizeOperation env KM_PURPOSE_SIGN keyid (policy_max_uses n) [] 0 true st

/-- The state after `k` such calls. -/
def maxUsesIter (env : Env) (keyid n : Nat) (st : KmState) : Nat → KmState
  | 0 => st
  | k + 1 => (maxUsesCall env keyid n (maxUsesIter env keyid n st k)).2

/-- A policy with an explicit SIGN purpose grant and a minimum interval of
`t` seconds between operations. -/
def policy_min_interval (t : Nat) : List KmParam :=
  [ { tag := KmTag.purpose, enumerated := KM_PURPOSE_SIGN },
    { tag := KmTag.minSecondsBetweenOps, integer := t } ]

/-- A state with the given time-table contents and an empty count table,
both with capacity `cap`. -/
def timeState (cap : Nat) (l : List AccessTime) : KmState :=
  { access_time_map := { max_size := cap, last_access_list := l }
    access_count_map := { max_size := cap, access_count_list := [] } }

/-- One begin-operation call at clock time `tm` for a key rate-limited to
one operation per `t` seconds. -/
def rateCall (tm t keyid : Nat) (st : KmState) : KmError × KmState :=
  AuthorizeOperation (testEnv tm) KM_PURPOSE_SIGN keyid (policy_min_interval t) [] 0 true st

/-- A per-operation authentication key: USER_SECURE_ID without
AUTH_TIMEOUT, with a SIGN purpose grant. -/
def policy_per_op : List KmParam :=
  [ { tag := KmTag.purpose, enumerated := KM_PURPOSE_SIGN },
    { tag := KmTag.userSecureId, long_integer := 42 } ]

/-- A key policy with USER_SECURE_ID and AUTH_TIMEOUT but no
USER_AUTH_TYPE entry. -/
def policy_no_type : List KmParam :=
  [ { tag := KmTag.purpose, enumerated := KM_PURPOSE_SIGN },
    { tag := KmTag.userSecureId, long_integer := 42 },
    { tag := KmTag.authTimeout, integer := 30 } ]

/-- A well-formed 69-byte token blob: version 0, challenge 5, user id 42,
authenticator id 0, authenticator type 1 in network order, timestamp 0. -/
def token_blob : List Nat :=
  [0] ++ [5, 0, 0, 0, 0, 0, 0, 0] ++ [42, 0, 0, 0, 0, 0, 0, 0] ++
  [0, 0, 0, 0, 0, 0, 0, 0] ++ [0, 0, 0, 1] ++ [0, 0, 0, 0, 0, 0, 0, 0] ++
  List.replicate 32 0

/-! ## General lemmas about the embedded definitions -/

theorem containsEnum_iff (s : List KmParam) (t : KmTag) (v : Nat) :
    containsEnum s t v = true ↔ ∃ p ∈ s, p.tag = t ∧ p.enumerated = v := by
  simp [containsEnum, List.any_eq_true]

theorem is_public_key_algorithm_iff (s : List KmParam) :
    is_public_key_algorithm s = true ↔
      ∃ a, getTagEnum s KmTag.algorithm = some a ∧
           (a = KM_ALGORITHM_RSA ∨ a = KM_ALGORITHM_EC) := by
  unfold is_public_key_algorithm
  cases h : getTagEnum s KmTag.algorithm with
  | none => simp
  | some a => simp

/-! ## C2: purpose authorization -/

/-- C2: for VERIFY and ENCRYPT, purpose authorization succeeds iff the
policy's algorithm tag is RSA or EC or the policy contains a purpose entry
equal to the requested purpose, failing with IncompatiblePurpose otherwise;
for SIGN and DECRYPT it succeeds iff the policy explicitly contains that
purpose, failing with IncompatiblePurpose otherwise; any other purpose
value fails with UnsupportedPurpose. -/
theorem claim_C2_authorized_purpose (purpose : Nat) (auth_set : List KmParam) :
    ((purpose = KM_PURPOSE_VERIFY ∨ purpose = KM_PURPOSE_ENCRYPT) →
      (authorized_purpose purpose auth_set = KmError.ok ↔
        (∃ a, getTagEnum auth_set KmTag.algorithm = some a ∧
              (a = KM_ALGORITHM_RSA ∨ a = KM_ALGORITHM_EC)) ∨
        (∃ p ∈ auth_set, p.tag = KmTag.purpose ∧ p.enumerated = purpose)) ∧
      (authorized_purpose purpose auth_set ≠ KmError.ok →
        authorized_purpose purpose auth_set = KmError.incompatiblePurpose))
    ∧ ((purpose = KM_PURPOSE_SIGN ∨ purpose = KM_PURPOSE_DECRYPT) →
      (authorized_purpose purpose auth_set = KmError.ok ↔
        (∃ p ∈ auth_set, p.tag = KmTag.purpose ∧ p.enumerated = purpose)) ∧
      (authorized_purpose purpose auth_set ≠ KmError.ok →
        authorized_purpose purpose auth_set = KmError.incompatiblePurpose))
    ∧ (purpose ≠ KM_PURPOSE_VERIFY → purpose ≠ KM_PURPOSE_ENCRYPT →
       purpose ≠ KM_PURPOSE_SIGN → purpose ≠ KM_PURPOSE_DECRYPT →
       authorized_purpose purpose auth_set = KmError.unsupportedPurpose) := by
  refine ⟨fun hp => ?_, fun hp => ?_, fun h1 h2 h3 h4 => ?_⟩
  · have hne : ¬ (purpose = KM_PURPOSE_SIGN ∨ purpose = KM_PURPOSE_DECRYPT) := by
      rcases hp with h | h <;> simp [h, KM_PURPOSE_VERIFY, KM_PURPOSE_ENCRYPT,
        KM_PURPOSE_SIGN, KM_PURPOSE_DECRYPT]
    unfold authorized_purpose
    rw [if_pos hp]
    constructor
    · rw [← is_public_key_algorithm_iff, ← containsEnum_iff]
      by_cases hb : is_public_key_algorithm auth_set ||
          containsEnum auth_set KmTag.purpose purpose
      · simp only [if_pos hb]
        simp only [Bool.or_eq_true] at hb
        simp [hb]
      · simp only [if_neg hb]
        simp only [Bool.or_eq_true] at hb
        push_neg at hb
        simp [hb.1, hb.2]
    · intro hne2
      by_cases hb : is_public_key_algorithm auth_set ||
          containsEnum auth_set KmTag.purpose purpose
      · rw [if_pos hb] at hne2; exact absurd rfl hne2
      · rw [if_neg hb]
  · have hne : ¬ (purpose = KM_PURPOSE_VERIFY ∨ purpose = KM_PURPOSE_ENCRYPT) := by
      rcases hp with h | h <;> simp [h, KM_PURPOSE_VERIFY, KM_PURPOSE_ENCRYPT,
        KM_PURPOSE_SIGN, KM_PURPOSE_DECRYPT]
    unfold authorized_purpose
    rw [if_neg hne, if_pos hp]
    constructor
    · rw [← containsEnum_iff]
      by_cases hb : containsEnum auth_set KmTag.purpose purpose
      · simp [hb]
      · simp [hb]
    · intro hne2
      by_cases hb : containsEnum auth_set KmTag.purpose purpose
      · rw [if_pos hb] at hne2; exact absurd rfl hne2
      · rw [if_neg hb]
  · unfold authorized_purpose
    rw [if_neg (by tauto), if_neg (by tauto)]

/-- Witness for C2: concrete instances of each branch.  A VERIFY request on
an RSA key without a purpose entry succeeds; a SIGN request on the same
policy fails with IncompatiblePurpose; purpose value 9 is unsupported. -/
theorem claim_C2_witness :
    authorized_purpose KM_PURPOSE_VERIFY
        [{ tag := KmTag.algorithm, enumerated := KM_ALGORITHM_RSA }] = KmError.ok
    ∧ authorized_purpose KM_PURPOSE_SIGN
        [{ tag := KmTag.algorithm, enumerated := KM_ALGORITHM_RSA }] =
        KmError.incompatiblePurpose
    ∧ authorized_purpose 9 [] = KmError.unsupportedPurpose := by
  refine ⟨?_, ?_, ?_⟩
  · exact ((claim_C2_authorized_purpose KM_PURPOSE_VERIFY
      [{ tag := KmTag.algorithm, enumerated := KM_ALGORITHM_RSA }]).1
      (Or.inl rfl)).1.mpr (Or.inl ⟨KM_ALGORITHM_RSA, by decide, Or.inl rfl⟩)
  · exact ((claim_C2_authorized_purpose KM_PURPOSE_SIGN
      [{ tag := KmTag.algorithm, enumerated := KM_ALGORITHM_RSA }]).2.1
      (Or.inl rfl)).2 (by decide)
  · exact (claim_C2_authorized_purpose 9 []).2.2 (by decide) (by decide)
      (by decide) (by decide)

/-! ## C3: an unauthentic token is never accepted -/

/-- C3: whenever the signature validator rejects the token parsed from the
auth-token blob of the operation parameters, AuthTokenMatches returns
false, for every challenge, identity, authenticator type, timestamp,
policy and call context. -/
theorem claim_C3_bad_signature_rejected (env : Env)
    (auth_set operation_params : List KmParam) (user_secure_id : Nat)
    (auth_type_index auth_timeout_index : Option Nat) (op_handle : Nat)
    (is_begin_operation : Bool) (blob : List Nat)
    (hb : getTagBlob operation_params KmTag.authToken = some blob)
    (hs : env.validate_token_signature (parse_hw_auth_token blob) = false) :
    AuthTokenMatches env auth_set operation_params user_secure_id
      auth_type_index auth_timeout_index op_handle is_begin_operation = false := by
  simp only [AuthTokenMatches, hb]
  split_ifs <;> simp_all

/-- Witness for C3: a rejecting validator refuses a well-formed 69-byte
token blob. -/
theorem claim_C3_witness :
    AuthTokenMatches
      { current_time := 0, activation_date_valid := fun _ => true,
        expiration_date_passed := fun _ => false,
        auth_token_timed_out := fun _ _ => false,
        validate_token_signature := fun _ => false }
      [] [{ tag := KmTag.authToken, blob := List.replicate 69 0 }]
      0 (some 0) none 0 true = false :=
  claim_C3_bad_signature_rejected _ _ _ _ _ _ _ _ (List.replicate 69 0) rfl rfl

/-! ## C7: a blob of the wrong length is rejected -/

/-- C7: an auth-token blob whose byte length differs from the fixed 69-byte
packed token size is rejected.  The statement quantifies over arbitrary
blob contents, so the rejection is independent of every field of the blob:
no field value can change the outcome. -/
theorem claim_C7_wrong_length_rejected (env : Env)
    (auth_set operation_params : List KmParam) (user_secure_id : Nat)
    (auth_type_index auth_timeout_index : Option Nat) (op_handle : Nat)
    (is_begin_operation : Bool) (blob : List Nat)
    (hb : getTagBlob operation_params KmTag.authToken = some blob)
    (hlen : blob.length ≠ hw_auth_token_size) :
    AuthTokenMatches env auth_set operation_params user_secure_id
      auth_type_index auth_timeout_index op_handle is_begin_operation = false := by
  simp only [AuthTokenMatches, hb]
  rw [if_pos hlen]

/-- Witness for C7: a truncated 68-byte blob is rejected even when every
other element of the call would accept. -/
theorem claim_C7_witness :
    AuthTokenMatches
      { current_time := 0, activation_date_valid := fun _ => true,
        expiration_date_passed := fun _ => false,
        auth_token_timed_out := fun _ _ => false,
        validate_token_signature := fun _ => true }
      [] [{ tag := KmTag.authToken, blob := List.replicate 68 0 }]
      0 (some 0) none 0 true = false :=
  claim_C7_wrong_length_rejected _ _ _ _ _ _ _ _ (List.replicate 68 0) rfl (by decide)

/-! ## C9: the access counter saturates and never decreases -/

/-- The entrywise effect of one `incrementScan`: key ids are preserved and
each counter either stays or, when strictly below the 32-bit maximum, goes
up by one. -/
theorem incrementScan_forall2 (keyid : Nat) (l l2 : List AccessCount)
    (h : incrementScan keyid l = some l2) :
    List.Forall₂ (fun e e2 => e2.keyid = e.keyid ∧
      (e2.access_count = e.access_count ∨
       (e.access_count < UINT32_MAX ∧ e2.access_count = e.access_count + 1))) l l2 := by
  induction l generalizing l2 with
  | nil => simp [incrementScan] at h
  | cons e rest ih =>
    by_cases he : e.keyid = keyid
    · simp only [incrementScan, if_pos he] at h
      by_cases hc : e.access_count < UINT32_MAX
      · rw [if_pos hc] at h
        cases h
        exact List.Forall₂.cons ⟨rfl, Or.inr ⟨hc, rfl⟩⟩
          (List.forall₂_same.mpr (fun x _ => ⟨rfl, Or.inl rfl⟩))
      · rw [if_neg hc] at h
        cases h
        exact List.Forall₂.cons ⟨rfl, Or.inl rfl⟩
          (List.forall₂_same.mpr (fun x _ => ⟨rfl, Or.inl rfl⟩))
    · simp only [incrementScan, if_neg he] at h
      cases hr : incrementScan keyid rest with
      | none => rw [hr] at h; cases h
      | some rest2 =>
        rw [hr] at h
        cases h
        exact List.Forall₂.cons ⟨rfl, Or.inl rfl⟩ (ih rest2 hr)

/-- `incrementScan` fails exactly when the key id is absent. -/
theorem incrementScan_none_iff (keyid : Nat) (l : List AccessCount) :
    incrementScan keyid l = none ↔ ∀ e ∈ l, e.keyid ≠ keyid := by
  induction l with
  | nil => simp [incrementScan]
  | cons e rest ih =>
    by_cases he : e.keyid = keyid
    · simp [incrementScan, he]
    · simp only [incrementScan, if_neg he]
      cases hr : incrementScan keyid rest with
      | none =>
        simp only [hr]
        refine iff_of_true trivial ?_
        intro x hx
        rcases List.mem_cons.mp hx with h1 | h1
        · rw [h1]; exact he
        · exact ih.mp hr x h1
      | some rest2 =>
        simp only [hr]
        constructor
        · intro h; cases h
        · intro h
          have := ih.mpr (fun x hx => h x (List.mem_cons_of_mem _ hx))
          rw [this] at hr; cases hr

/-- Transport of a `find?` hit along an entrywise relation that preserves
key ids. -/
theorem find?_of_forall2 (P : AccessCount → AccessCount → Prop)
    (l l2 : List AccessCount)
    (h : List.Forall₂ (fun e e2 => e2.keyid = e.keyid ∧ P e e2) l l2)
    (k : Nat) (e : AccessCount)
    (he : l.find? (fun x => decide (x.keyid = k)) = some e) :
    ∃ e2, l2.find? (fun x => decide (x.keyid = k)) = some e2 ∧
      e2.keyid = e.keyid ∧ P e e2 := by
  induction h with
  | nil => simp at he
  | @cons a b la lb hab _ ih =>
    by_cases hk : a.keyid = k
    · rw [List.find?_cons_of_pos _ (by simp [hk])] at he
      cases he
      exact ⟨b, List.find?_cons_of_pos _ (by simp [hab.1, hk]), hab.1, hab.2⟩
    · rw [List.find?_cons_of_neg _ (by simp [hk])] at he
      obtain ⟨e2, h1, h2⟩ := ih he
      exact ⟨e2, by rw [List.find?_cons_of_neg _ (by simp [hab.1, hk])]; exact h1, h2⟩

/-- C9: the per-key counter never wraps.  When the stored counter for a key
already equals the 32-bit maximum, a further increment reports success and
leaves the counter at the maximum; every stored counter is non-decreasing
across an increment call; and counters bounded by the maximum stay bounded
(no wrap to a smaller value). -/
theorem claim_C9_counter_saturates (m : AccessCountMap) (keyid : Nat) :
    (KeyAccessCount m keyid = some UINT32_MAX →
      (IncrementKeyAccessCount m keyid).1 = true ∧
      KeyAccessCount (IncrementKeyAccessCount m keyid).2 keyid = some UINT32_MAX)
    ∧ (∀ k c, KeyAccessCount m k = some c →
        ∃ c2, KeyAccessCount (IncrementKeyAccessCount m keyid).2 k = some c2 ∧
          c ≤ c2 ∧ c2 ≤ max c (c + 1)) := by
  constructor
  · intro hmax
    unfold KeyAccessCount at hmax
    cases hfind : m.access_count_list.find? (fun x => decide (x.keyid = keyid)) with
    | none => rw [hfind] at hmax; cases hmax
    | some e =>
      rw [hfind] at hmax
      have hcnt : e.access_count = UINT32_MAX := by
        simpa using hmax
      have hmem : e.keyid = keyid := by
        have := List.find?_some hfind
        simpa using this
      have hne : incrementScan keyid m.access_count_list ≠ none := by
        intro hc
        exact (incrementScan_none_iff keyid m.access_count_list).mp hc e
          (List.mem_of_find?_eq_some hfind) hmem
      cases hscan : incrementScan keyid m.access_count_list with
      | none => exact absurd hscan hne
      | some l2 =>
        have hf2 := incrementScan_forall2 keyid _ _ hscan
        obtain ⟨e2, hfind2, hkid, hp⟩ := find?_of_forall2 _ _ _ hf2 keyid e hfind
        have he2 : e2.access_count = UINT32_MAX := by
          rcases hp with h | ⟨hlt, _⟩
          · rw [h, hcnt]
          · rw [hcnt] at hlt; exact absurd hlt (lt_irrefl _)
        constructor
        · simp [IncrementKeyAccessCount, hscan]
        · simp [IncrementKeyAccessCount, hscan, KeyAccessCount, hfind2, he2]
  · intro k c hc
    unfold KeyAccessCount at hc
    cases hfind : m.access_count_list.find? (fun x => decide (x.keyid = k)) with
    | none => rw [hfind] at hc; cases hc
    | some e =>
      rw [hfind] at hc
      have hcnt : e.access_count = c := by simpa using hc
      cases hscan : incrementScan keyid m.access_count_list with
      | none =>
        unfold IncrementKeyAccessCount
        rw [hscan]
        by_cases hfull : m.access_count_list.length ≥ m.max_size
        · rw [if_pos hfull]
          exact ⟨c, by simp [KeyAccessCount, hfind, hcnt], le_refl c, le_max_left _ _⟩
        · rw [if_neg hfull]
          refine ⟨c, ?_, le_refl c, le_max_left _ _⟩
          have hek : e.keyid = k := by simpa using List.find?_some hfind
          have hknone : ∀ x ∈ m.access_count_list, x.keyid ≠ keyid :=
            (incrementScan_none_iff keyid m.access_count_list).mp hscan
          have hkk : keyid ≠ k := by
            intro h
            exact hknone e (List.mem_of_find?_eq_some hfind) (by rw [hek, h])
          simp only [KeyAccessCount]
          rw [List.find?_cons_of_neg _ (by simpa using hkk)]
          simp [hfind, hcnt]
      | some l2 =>
        have hf2 := incrementScan_forall2 keyid _ _ hscan
        obtain ⟨e2, hfind2, hkid, hp⟩ := find?_of_forall2 _ _ _ hf2 k e hfind
        refine ⟨e2.access_count, by simp [IncrementKeyAccessCount, hscan, KeyAccessCount, hfind2], ?_, ?_⟩
        · rcases hp with h | ⟨_, h⟩ <;> omega
        · rcases hp with h | ⟨_, h⟩ <;> omega

/-- Witness for C9: a counter stored at the 32-bit maximum stays there and
the call still succeeds. -/
theorem claim_C9_witness :
    (IncrementKeyAccessCount
        { max_size := 4, access_count_list := [{ keyid := 5, access_count := UINT32_MAX }] } 5).1 = true
    ∧ KeyAccessCount
        (IncrementKeyAccessCount
          { max_size := 4, access_count_list := [{ keyid := 5, access_count := UINT32_MAX }] } 5).2 5 =
        some UINT32_MAX :=
  (claim_C9_counter_saturates
    { max_size := 4, access_count_list := [{ keyid := 5, access_count := UINT32_MAX }] } 5).1 rfl

/-! ## C8: the access-time table update -/

theorem usub32_eq_sub (a b : Nat) (hab : a ≤ b) (hb : b < 4294967296) :
    usub32 b a = b - a := by
  unfold usub32
  rw [Nat.mod_eq_of_lt hb, Nat.mod_eq_of_lt (lt_of_le_of_lt hab hb)]
  rw [show b + 4294967296 - a = b - a + 4294967296 by omega]
  rw [Nat.add_mod_right]
  exact Nat.mod_eq_of_lt (by omega)

/-- When the key id is absent, the update loop degenerates to the expiry
sweep: it returns not-found together with exactly the unexpired entries, in
order. -/
theorem updateScan_not_found (keyid now : Nat) (l : List AccessTime)
    (h : ∀ e ∈ l, e.keyid ≠ keyid) :
    updateScan keyid now l =
      (false, l.filter (fun e => decide (usub32 now e.access_time < e.timeout))) := by
  induction l with
  | nil => simp [updateScan]
  | cons e rest ih =>
    have he : e.keyid ≠ keyid := h e (List.mem_cons_self e rest)
    have hrest := ih (fun x hx => h x (List.mem_cons_of_mem _ hx))
    by_cases hexp : usub32 now e.access_time ≥ e.timeout
    · simp only [updateScan, if_neg he, if_pos hexp, hrest]
      rw [List.filter_cons_of_neg (by simpa using hexp)]
    · simp only [updateScan, if_neg he, if_neg hexp, hrest]
      rw [List.filter_cons_of_pos (by simpa using Nat.lt_of_not_le hexp)]

/-- When the key id is present, the update loop reports a hit and the
resulting list carries an entry for the key refreshed to the current
time. -/
theorem updateScan_found (keyid now : Nat) (l : List AccessTime)
    (h : ∃ e ∈ l, e.keyid = keyid) :
    (updateScan keyid now l).1 = true ∧
    ∃ e2 ∈ (updateScan keyid now l).2, e2.keyid = keyid ∧ e2.access_time = now := by
  induction l with
  | nil => simp at h
  | cons e rest ih =>
    by_cases he : e.keyid = keyid
    · refine ⟨by simp [updateScan, he], ?_⟩
      refine ⟨{ e with access_time := now }, ?_, he, rfl⟩
      simp [updateScan, he]
    · obtain ⟨w, hw, hwk⟩ := h
      rcases List.mem_cons.mp hw with h1 | h1
      · rw [h1] at hwk; exact absurd hwk he
      · have ihh := ih ⟨w, h1, hwk⟩
        by_cases hexp : usub32 now e.access_time ≥ e.timeout
        · simpa [updateScan, he, hexp] using ihh
        · obtain ⟨ih1, e2, he2, hk2, ht2⟩ := ihh
          refine ⟨by simp [updateScan, he, hexp, ih1], ?_⟩
          exact ⟨e2, by simp [updateScan, he, hexp, List.mem_cons_of_mem _ he2], hk2, ht2⟩

/-- Definitional unfolding of `UpdateKeyAccessTime` with the let inlined. -/
theorem UpdateKeyAccessTime_def (m : AccessTimeMap) (keyid now timeout : Nat) :
    UpdateKeyAccessTime m keyid now timeout =
      (if (updateScan keyid now m.last_access_list).1 = true then
        (true, { m with last_access_list := (updateScan keyid now m.last_access_list).2 })
      else if (updateScan keyid now m.last_access_list).2.length ≥ m.max_size then
        (false, { m with last_access_list := (updateScan keyid now m.last_access_list).2 })
      else
        (true, { m with last_access_list :=
          { keyid := keyid, access_time := now, timeout := timeout } ::
            (updateScan keyid now m.last_access_list).2 })) := rfl

/-- C8: behaviour of the access-time table update.  If an entry for the key
exists, the call reports success regardless of table fullness and the table
holds an entry for the key refreshed to the current time.  If no entry
exists, any entry the call removes has reached its own stored timeout
(so no live entry for another key is ever evicted), and the call reports
failure exactly when the entries surviving the expiry sweep still fill the
table to capacity. -/
theorem claim_C8_update_access_time (m : AccessTimeMap) (keyid now timeout : Nat)
    (hbound : ∀ e ∈ m.last_access_list, e.access_time ≤ now)
    (hnow : now < 4294967296) :
    ((∃ e ∈ m.last_access_list, e.keyid = keyid) →
       (UpdateKeyAccessTime m keyid now timeout).1 = true ∧
       ∃ e2 ∈ (UpdateKeyAccessTime m keyid now timeout).2.last_access_list,
         e2.keyid = keyid ∧ e2.access_time = now)
    ∧ ((∀ e ∈ m.last_access_list, e.keyid ≠ keyid) →
       (∀ e ∈ m.last_access_list,
          e ∈ (UpdateKeyAccessTime m keyid now timeout).2.last_access_list ∨
          now - e.access_time ≥ e.timeout)
       ∧ ((UpdateKeyAccessTime m keyid now timeout).1 = false ↔
          (m.last_access_list.filter
            (fun e => decide (now - e.access_time < e.timeout))).length ≥ m.max_size)) := by
  have hfilter : m.last_access_list.filter
        (fun e => decide (usub32 now e.access_time < e.timeout)) =
      m.last_access_list.filter (fun e => decide (now - e.access_time < e.timeout)) := by
    apply List.filter_congr
    intro e he
    rw [usub32_eq_sub _ _ (hbound e he) hnow]
  constructor
  · intro hex
    obtain ⟨h1, e2, he2, hk2, ht2⟩ := updateScan_found keyid now m.last_access_list hex
    rw [UpdateKeyAccessTime_def, if_pos h1]
    exact ⟨rfl, e2, he2, hk2, ht2⟩
  · intro habs
    have hscan := updateScan_not_found keyid now m.last_access_list habs
    constructor
    · intro e he
      by_cases hexp : now - e.access_time ≥ e.timeout
      · exact Or.inr hexp
      · left
        have hmem : e ∈ (updateScan keyid now m.last_access_list).2 := by
          rw [hscan, hfilter]
          exact List.mem_filter.mpr ⟨he, by simpa using Nat.lt_of_not_le hexp⟩
        rw [UpdateKeyAccessTime_def, if_neg (by rw [hscan]; simp)]
        by_cases hfull : (updateScan keyid now m.last_access_list).2.length ≥ m.max_size
        · rw [if_pos hfull]
          exact hmem
        · rw [if_neg hfull]
          exact List.mem_cons_of_mem _ hmem
    · rw [UpdateKeyAccessTime_def, if_neg (by rw [hscan]; simp)]
      rw [show (updateScan keyid now m.last_access_list).2 =
        m.last_access_list.filter (fun e => decide (now - e.access_time < e.timeout)) by
          rw [hscan, hfilter]]
      by_cases hfull : (m.last_access_list.filter
          (fun e => decide (now - e.access_time < e.timeout))).length ≥ m.max_size
      · simp [hfull]
      · simp [hfull]

/-- Witness for C8: a full table refreshes an existing key and reports
success; a full table of live entries refuses a new key. -/
theorem claim_C8_witness :
    ((UpdateKeyAccessTime
        { max_size := 1,
          last_access_list := [{ keyid := 1, access_time := 10, timeout := 500 }] }
        1 100 7).1 = true ∧
      ∃ e2 ∈ (UpdateKeyAccessTime
        { max_size := 1,
          last_access_list := [{ keyid := 1, access_time := 10, timeout := 500 }] }
        1 100 7).2.last_access_list, e2.keyid = 1 ∧ e2.access_time = 100)
    ∧ ((UpdateKeyAccessTime
        { max_size := 1,
          last_access_list := [{ keyid := 1, access_time := 10, timeout := 500 }] }
        2 100 7).1 = false ↔
        (([{ keyid := 1, access_time := 10, timeout := 500 }] : List AccessTime).filter
          (fun e => decide (100 - e.access_time < e.timeout))).length ≥ 1) := by
  constructor
  · exact (claim_C8_update_access_time
      { max_size := 1,
        last_access_list := [{ keyid := 1, access_time := 10, timeout := 500 }] }
      1 100 7 (by decide) (by decide)).1
      ⟨{ keyid := 1, access_time := 10, timeout := 500 }, by decide, rfl⟩
  · exact ((claim_C8_update_access_time
      { max_size := 1,
        last_access_list := [{ keyid := 1, access_time := 10, timeout := 500 }] }
      2 100 7 (by decide) (by decide)).2 (by decide)).2

/-! ## Structural lemmas about AuthorizeOperation -/

/-- Definitional unfolding of `AuthorizeOperation` with the lets inlined. -/
theorem AuthorizeOperation_def (env : Env) (purpose keyid : Nat)
    (auth_set operation_params : List KmParam) (op_handle : Nat)
    (is_begin_operation : Bool) (st : KmState) :
    AuthorizeOperation env purpose keyid auth_set operation_params op_handle
        is_begin_operation st =
      (if authorized_purpose purpose auth_set ≠ KmError.ok then
        (authorized_purpose purpose auth_set, st)
      else
        match authScan env purpose keyid auth_set operation_params op_handle
            is_begin_operation (preScan auth_set) st auth_set {} with
        | .error e => (e, st)
        | .ok fl =>
          if fl.authentication_required && !fl.auth_token_matched then
            (KmError.keyUserNotAuthenticated, st)
          else if !fl.found_caller_nonce && (findTag operation_params KmTag.nonce).isSome then
            (KmError.callerNonceProhibited, st)
          else commitTables env keyid fl st) := rfl

/-- `authorized_purpose` only ever produces these three codes. -/
theorem authorized_purpose_cases (purpose : Nat) (auth_set : List KmParam) :
    authorized_purpose purpose auth_set = KmError.ok ∨
    authorized_purpose purpose auth_set = KmError.incompatiblePurpose ∨
    authorized_purpose purpose auth_set = KmError.unsupportedPurpose := by
  unfold authorized_purpose
  split_ifs <;> simp

/-- The error codes one loop iteration can short-circuit with. -/
theorem scanParam_error_mem (env : Env) (purpose keyid : Nat)
    (auth_set operation_params : List KmParam) (op_handle : Nat)
    (is_begin_operation : Bool) (idx : Option Nat × Option Nat × Option Nat)
    (st : KmState) (p : KmParam) (fl : ScanFlags) (e : KmError)
    (h : scanParam env purpose keyid auth_set operation_params op_handle
      is_begin_operation idx st p fl = .error e) :
    e = KmError.keyNotYetValid ∨ e = KmError.keyExpired ∨
    e = KmError.keyRateLimitExceeded ∨ e = KmError.keyMaxOpsExceeded ∨
    e = KmError.invalidKeyBlob := by
  cases htag : p.tag <;>
    simp only [scanParam, htag, reduceCtorEq, or_self, or_false, false_or,
      if_false, if_true, ite_false, ite_true, not_false_eq_true, reduceIte] at h <;>
    (try split_ifs at h) <;> simp_all

/-- The error codes the whole tag loop can short-circuit with. -/
theorem authScan_error_mem (env : Env) (purpose keyid : Nat)
    (auth_set operation_params : List KmParam) (op_handle : Nat)
    (is_begin_operation : Bool) (idx : Option Nat × Option Nat × Option Nat)
    (st : KmState) (l : List KmParam) (fl : ScanFlags) (e : KmError)
    (h : authScan env purpose keyid auth_set operation_params op_handle
      is_begin_operation idx st l fl = .error e) :
    e = KmError.keyNotYetValid ∨ e = KmError.keyExpired ∨
    e = KmError.keyRateLimitExceeded ∨ e = KmError.keyMaxOpsExceeded ∨
    e = KmError.invalidKeyBlob := by
  induction l generalizing fl with
  | nil => simp [authScan] at h
  | cons p rest ih =>
    simp only [authScan] at h
    cases hp : scanParam env purpose keyid auth_set operation_params op_handle
        is_begin_operation idx st p fl with
    | error e2 =>
      rw [hp] at h
      cases h
      exact scanParam_error_mem _ _ _ _ _ _ _ _ _ _ _ _ hp
    | ok fl2 =>
      rw [hp] at h
      exact ih fl2 h

/-- A failing increment leaves the count table untouched. -/
theorem increment_false_unchanged (m : AccessCountMap) (keyid : Nat)
    (h : (IncrementKeyAccessCount m keyid).1 = false) :
    (IncrementKeyAccessCount m keyid).2 = m := by
  unfold IncrementKeyAccessCount at h ⊢
  cases hs : incrementScan keyid m.access_count_list with
  | some l => rw [hs] at h; simp at h
  | none =>
    rw [hs] at h
    by_cases hfull : m.access_count_list.length ≥ m.max_size
    · simp [hfull]
    · simp [hfull] at h

/-- A failing count commit reports TooManyOperations and does not change
the state at all. -/
theorem commitCount_error (keyid : Nat) (fl : ScanFlags) (st : KmState)
    (h : (commitCount keyid fl st).1 ≠ KmError.ok) :
    (commitCount keyid fl st).1 = KmError.tooManyOperations ∧
    (commitCount keyid fl st).2 = st := by
  unfold commitCount at h ⊢
  by_cases hflag : fl.update_access_count = true
  · rw [if_pos hflag] at h ⊢
    by_cases hinc : (IncrementKeyAccessCount st.access_count_map keyid).1 = false
    · rw [if_pos hinc]
      refine ⟨rfl, ?_⟩
      rw [increment_false_unchanged _ _ hinc]
    · rw [if_neg hinc] at h
      exact absurd rfl h
  · rw [if_neg hflag] at h
    exact absurd rfl h

/-- A failing commit phase reports TooManyOperations and never changes the
count table. -/
theorem commitTables_error (env : Env) (keyid : Nat) (fl : ScanFlags) (st : KmState)
    (h : (commitTables env keyid fl st).1 ≠ KmError.ok) :
    (commitTables env keyid fl st).1 = KmError.tooManyOperations ∧
    (commitTables env keyid fl st).2.access_count_map = st.access_count_map := by
  unfold commitTables at h ⊢
  by_cases hmin : fl.min_ops_timeout ≠ UINT32_MAX
  · rw [if_pos hmin] at h ⊢
    by_cases hup : (UpdateKeyAccessTime st.access_time_map keyid env.current_time
        fl.min_ops_timeout).1 = false
    · rw [if_pos hup]
      exact ⟨rfl, rfl⟩
    · rw [if_neg hup] at h ⊢
      obtain ⟨h1, h2⟩ := commitCount_error keyid fl _ h
      exact ⟨h1, by rw [h2]⟩
  · rw [if_neg hmin] at h ⊢
    obtain ⟨h1, h2⟩ := commitCount_error keyid fl st h
    exact ⟨h1, by rw [h2]⟩

/-- A call whose purpose check fails returns that error with the state
untouched. -/
theorem authorize_of_purpose_error (env : Env) (purpose keyid : Nat)
    (auth_set operation_params : List KmParam) (op_handle : Nat)
    (is_begin_operation : Bool) (st : KmState)
    (h0 : authorized_purpose purpose auth_set ≠ KmError.ok) :
    AuthorizeOperation env purpose keyid auth_set operation_params op_handle
        is_begin_operation st = (authorized_purpose purpose auth_set, st) := by
  rw [AuthorizeOperation_def, if_pos h0]

/-- A call whose tag loop short-circuits returns that error with the state
untouched. -/
theorem authorize_of_scan_error (env : Env) (purpose keyid : Nat)
    (auth_set operation_params : List KmParam) (op_handle : Nat)
    (is_begin_operation : Bool) (st : KmState) (e : KmError)
    (h0 : authorized_purpose purpose auth_set = KmError.ok)
    (hscan : authScan env purpose keyid auth_set operation_params op_handle
      is_begin_operation (preScan auth_set) st auth_set {} = .error e) :
    AuthorizeOperation env purpose keyid auth_set operation_params op_handle
        is_begin_operation st = (e, st) := by
  rw [AuthorizeOperation_def, if_neg (by rw [h0]; exact fun hc => hc rfl)]
  simp only [hscan]

/-- A call whose tag loop completes continues with the post-loop checks on
the final flags. -/
theorem authorize_of_scan_ok (env : Env) (purpose keyid : Nat)
    (auth_set operation_params : List KmParam) (op_handle : Nat)
    (is_begin_operation : Bool) (st : KmState) (fl : ScanFlags)
    (h0 : authorized_purpose purpose auth_set = KmError.ok)
    (hscan : authScan env purpose keyid auth_set operation_params op_handle
      is_begin_operation (preScan auth_set) st auth_set {} = .ok fl) :
    AuthorizeOperation env purpose keyid auth_set operation_params op_handle
        is_begin_operation st =
      (if fl.authentication_required && !fl.auth_token_matched then
        (KmError.keyUserNotAuthenticated, st)
      else if !fl.found_caller_nonce && (findTag operation_params KmTag.nonce).isSome then
        (KmError.callerNonceProhibited, st)
      else commitTables env keyid fl st) := by
  rw [AuthorizeOperation_def, if_neg (by rw [h0]; exact fun hc => hc rfl)]
  simp only [hscan]

/-- C1 (amended): on any non-ok outcome AuthorizeOperation keeps the
Access-Count table intact, and the Access-Time table is intact too unless
the error is TooManyOperations; in that one case a committed time-table
update may persist, namely when the count-table commit fails after the
time-table commit already succeeded. -/
theorem claim_C1_amended_tables_on_error (env : Env) (purpose keyid : Nat)
    (auth_set operation_params : List KmParam) (op_handle : Nat)
    (is_begin_operation : Bool) (st : KmState)
    (h : (AuthorizeOperation env purpose keyid auth_set operation_params
      op_handle is_begin_operation st).1 ≠ KmError.ok) :
    (AuthorizeOperation env purpose keyid auth_set operation_params op_handle
        is_begin_operation st).2.access_count_map = st.access_count_map ∧
    ((AuthorizeOperation env purpose keyid auth_set operation_params op_handle
        is_begin_operation st).2.access_time_map = st.access_time_map ∨
     (AuthorizeOperation env purpose keyid auth_set operation_params op_handle
        is_begin_operation st).1 = KmError.tooManyOperations) := by
  by_cases h0 : authorized_purpose purpose auth_set = KmError.ok
  · cases hscan : authScan env purpose keyid auth_set operation_params op_handle
        is_begin_operation (preScan auth_set) st auth_set {} with
    | error e =>
      rw [authorize_of_scan_error env purpose keyid auth_set operation_params
        op_handle is_begin_operation st e h0 hscan]
      exact ⟨rfl, Or.inl rfl⟩
    | ok fl =>
      rw [authorize_of_scan_ok env purpose keyid auth_set operation_params
        op_handle is_begin_operation st fl h0 hscan] at h ⊢
      by_cases hauth : (fl.authentication_required && !fl.auth_token_matched) = true
      · rw [if_pos hauth]
        exact ⟨rfl, Or.inl rfl⟩
      · rw [if_neg hauth] at h ⊢
        by_cases hnonce : (!fl.found_caller_nonce &&
            (findTag operation_params KmTag.nonce).isSome) = true
        · rw [if_pos hnonce]
          exact ⟨rfl, Or.inl rfl⟩
        · rw [if_neg hnonce] at h ⊢
          obtain ⟨h1, h2⟩ := commitTables_error env keyid fl st h
          exact ⟨h2, Or.inr h1⟩
  · rw [authorize_of_purpose_error env purpose keyid auth_set operation_params
      op_handle is_begin_operation st h0]
    exact ⟨rfl, Or.inl rfl⟩

/-- Counterexample to C1 as stated: with both a rate limit and a use-count
limit in the policy and the count table full for other keys, the call
returns the error TooManyOperations, yet the Access-Time table HAS been
mutated by the call (the time-table commit succeeded before the count-table
commit failed). -/
theorem claim_C1_counterexample :
    (AuthorizeOperation (testEnv 100) KM_PURPOSE_SIGN 7 policy_both [] 0 true
        st_count_full).1 = KmError.tooManyOperations ∧
    (AuthorizeOperation (testEnv 100) KM_PURPOSE_SIGN 7 policy_both [] 0 true
        st_count_full).2.access_time_map ≠ st_count_full.access_time_map := by
  decide

/-- Witness for the amended C1 at the same input: the count table is
unchanged and the error is TooManyOperations. -/
theorem claim_C1_witness :
    (AuthorizeOperation (testEnv 100) KM_PURPOSE_SIGN 7 policy_both [] 0 true
        st_count_full).2.access_count_map = st_count_full.access_count_map ∧
    ((AuthorizeOperation (testEnv 100) KM_PURPOSE_SIGN 7 policy_both [] 0 true
        st_count_full).2.access_time_map = st_count_full.access_time_map ∨
     (AuthorizeOperation (testEnv 100) KM_PURPOSE_SIGN 7 policy_both [] 0 true
        st_count_full).1 = KmError.tooManyOperations) :=
  claim_C1_amended_tables_on_error (testEnv 100) KM_PURPOSE_SIGN 7 policy_both []
    0 true st_count_full (by decide)

/-! ## C5: max uses per boot -/

/-- A call for a max-uses key reduces to the count-table check followed, on
success, by the count commit. -/
theorem maxUsesCall_eval (env : Env) (keyid n : Nat) (st : KmState) :
    maxUsesCall env keyid n st =
      (if MaxUsesPerBootNotExceeded st.access_count_map keyid n = true then
        commitCount keyid { update_access_count := true } st
      else (KmError.keyMaxOpsExceeded, st)) := by
  by_cases hM : MaxUsesPerBootNotExceeded st.access_count_map keyid n = true
  · rw [if_pos hM]
    have hscan : authScan env KM_PURPOSE_SIGN keyid (policy_max_uses n) [] 0 true
        (preScan (policy_max_uses n)) st (policy_max_uses n) {} =
        .ok { update_access_count := true } := by
      simp [authScan, scanParam, policy_max_uses, hM]
    rw [maxUsesCall,
      authorize_of_scan_ok env KM_PURPOSE_SIGN keyid (policy_max_uses n) [] 0 true
        st { update_access_count := true } rfl hscan]
    simp [findTag, commitTables]
  · rw [if_neg hM]
    have hscan : authScan env KM_PURPOSE_SIGN keyid (policy_max_uses n) [] 0 true
        (preScan (policy_max_uses n)) st (policy_max_uses n) {} =
        .error KmError.keyMaxOpsExceeded := by
      simp [authScan, scanParam, policy_max_uses, hM]
    exact authorize_of_scan_error env KM_PURPOSE_SIGN keyid (policy_max_uses n) []
      0 true st KmError.keyMaxOpsExceeded rfl hscan

/-- Count commit into an empty count table with free capacity. -/
theorem commitCount_empty (keyid cap : Nat) (hcap : 0 < cap) :
    commitCount keyid { update_access_count := true } (countState cap []) =
      (KmError.ok, countState cap [{ keyid := keyid, access_count := 1 }]) := by
  simp [commitCount, IncrementKeyAccessCount, incrementScan, countState,
    Nat.not_le.mpr hcap]

/-- Count commit onto the existing, unsaturated entry for the key. -/
theorem commitCount_entry (keyid cap k : Nat) (hk : k < UINT32_MAX) :
    commitCount keyid { update_access_count := true }
        (countState cap [{ keyid := keyid, access_count := k }]) =
      (KmError.ok, countState cap [{ keyid := keyid, access_count := k + 1 }]) := by
  simp [commitCount, IncrementKeyAccessCount, incrementScan, countState, hk]

/-- The count check against the single-entry table. -/
theorem maxUses_entry (keyid cap k n : Nat) :
    MaxUsesPerBootNotExceeded (countState cap
      [{ keyid := keyid, access_count := k }]).access_count_map keyid n =
      decide (k < n) := by
  simp [MaxUsesPerBootNotExceeded, KeyAccessCount, countState]

/-- State reached after `k` admissible calls: the count table records `k`
uses of the key. -/
theorem maxUsesIter_state (env : Env) (keyid cap n : Nat) (hcap : 0 < cap)
    (hn : n ≤ UINT32_MAX) :
    ∀ k, k ≤ max n 1 →
      maxUsesIter env keyid n (countState cap []) k =
        countState cap (if k = 0 then [] else [{ keyid := keyid, access_count := k }]) := by
  intro k
  induction k with
  | zero => intro _; rfl
  | succ j ih =>
    intro hj
    have hjle : j ≤ max n 1 := Nat.le_of_succ_le hj
    rw [maxUsesIter, ih hjle, maxUsesCall_eval]
    cases j with
    | zero =>
      rw [if_pos rfl, if_pos (show MaxUsesPerBootNotExceeded
          (countState cap []).access_count_map keyid n = true from rfl),
        commitCount_empty keyid cap hcap]
      rw [if_neg (by omega)]
    | succ i =>
      have hjn : i + 1 < n := by
        rcases le_max_iff.mp hj with h | h <;> omega
      rw [if_neg (Nat.succ_ne_zero i), maxUses_entry,
        if_pos (by simpa using hjn), commitCount_entry keyid cap (i + 1) (by omega)]
      rw [if_neg (by omega)]

/-- C5 (amended): starting from a fresh (post-boot) count table with free
capacity, for a key limited to `n` uses per boot exactly the first
`max n 1` calls succeed and the following call fails with
KeyMaxOpsExceeded.  The check passes whenever no count entry exists yet, so
the very first call succeeds even when `n = 0`: the limit behaves as
`max n 1`, not `n`. -/
theorem claim_C5_amended_max_uses (env : Env) (keyid cap n : Nat)
    (hcap : 0 < cap) (hn : n ≤ UINT32_MAX) :
    (∀ k, k < max n 1 →
      (maxUsesCall env keyid n (maxUsesIter env keyid n (countState cap []) k)).1 =
        KmError.ok)
    ∧ (maxUsesCall env keyid n
        (maxUsesIter env keyid n (countState cap []) (max n 1))).1 =
      KmError.keyMaxOpsExceeded := by
  constructor
  · intro k hk
    rw [maxUsesIter_state env keyid cap n hcap hn k (Nat.le_of_lt hk),
      maxUsesCall_eval]
    cases k with
    | zero =>
      rw [if_pos rfl, if_pos (show MaxUsesPerBootNotExceeded
          (countState cap []).access_count_map keyid n = true from rfl),
        commitCount_empty keyid cap hcap]
    | succ i =>
      have hkn : i + 1 < n := by
        rcases lt_max_iff.mp hk with h | h <;> omega
      rw [if_neg (Nat.succ_ne_zero i), maxUses_entry,
        if_pos (by simpa using hkn), commitCount_entry keyid cap (i + 1) (by omega)]
  · rw [maxUsesIter_state env keyid cap n hcap hn (max n 1) (le_refl _),
      maxUsesCall_eval]
    have hM : max n 1 ≠ 0 := by
      have := le_max_right n 1
      omega
    have hnlt : ¬ (max n 1 < n) := not_lt.mpr (le_max_left n 1)
    rw [if_neg hM, maxUses_entry,
      if_neg (by simp only [decide_eq_true_eq]; exact hnlt)]

/-- Counterexample to C5 as stated: with `n = 0` the claim demands that no
call succeed and the first call fail with KeyMaxOpsExceeded, but the first
call on a fresh table succeeds. -/
theorem claim_C5_counterexample :
    (maxUsesCall (testEnv 100) 7 0 (countState 4 [])).1 = KmError.ok ∧
    (maxUsesCall (testEnv 100) 7 0 (countState 4 [])).1 ≠
      KmError.keyMaxOpsExceeded := by
  decide

/-- Witness for the amended C5 at `n = 2`, capacity 4: calls one and two
succeed, call three fails. -/
theorem claim_C5_witness :
    (maxUsesCall (testEnv 100) 7 2
        (maxUsesIter (testEnv 100) 7 2 (countState 4 []) 0)).1 = KmError.ok ∧
    (maxUsesCall (testEnv 100) 7 2
        (maxUsesIter (testEnv 100) 7 2 (countState 4 []) 1)).1 = KmError.ok ∧
    (maxUsesCall (testEnv 100) 7 2
        (maxUsesIter (testEnv 100) 7 2 (countState 4 []) 2)).1 =
      KmError.keyMaxOpsExceeded := by
  have h := claim_C5_amended_max_uses (testEnv 100) 7 4 2 (by decide) (by decide)
  exact ⟨h.1 0 (by decide), h.1 1 (by decide), h.2⟩

/-! ## C6: minimum seconds between operations -/

/-- A call for a rate-limited key reduces to the time check followed, on
success, by the commit phase with the recorded interval. -/
theorem rateCall_eval (tm t keyid : Nat) (st : KmState) :
    rateCall tm t keyid st =
      (if MinTimeBetweenOpsPassed (testEnv tm) st.access_time_map t keyid = true then
        commitTables (testEnv tm) keyid { min_ops_timeout := t } st
      else (KmError.keyRateLimitExceeded, st)) := by
  by_cases hM : MinTimeBetweenOpsPassed (testEnv tm) st.access_time_map t keyid = true
  · rw [if_pos hM]
    have hscan : authScan (testEnv tm) KM_PURPOSE_SIGN keyid (policy_min_interval t)
        [] 0 true (preScan (policy_min_interval t)) st (policy_min_interval t) {} =
        .ok { min_ops_timeout := t } := by
      simp [authScan, scanParam, policy_min_interval, hM]
    rw [rateCall,
      authorize_of_scan_ok (testEnv tm) KM_PURPOSE_SIGN keyid (policy_min_interval t)
        [] 0 true st { min_ops_timeout := t } rfl hscan]
    simp [findTag]
  · rw [if_neg hM]
    have hscan : authScan (testEnv tm) KM_PURPOSE_SIGN keyid (policy_min_interval t)
        [] 0 true (preScan (policy_min_interval t)) st (policy_min_interval t) {} =
        .error KmError.keyRateLimitExceeded := by
      simp [authScan, scanParam, policy_min_interval, hM]
    exact authorize_of_scan_error (testEnv tm) KM_PURPOSE_SIGN keyid
      (policy_min_interval t) [] 0 true st KmError.keyRateLimitExceeded rfl hscan

/-- Commit into an empty time table with free capacity: a fresh entry is
recorded at the current time with the key's interval as its timeout. -/
theorem commitTables_rate_empty (tm t keyid cap : Nat) (hcap : 0 < cap)
    (ht : t ≠ UINT32_MAX) :
    commitTables (testEnv tm) keyid { min_ops_timeout := t } (timeState cap []) =
      (KmError.ok, timeState cap
        [{ keyid := keyid, access_time := tm, timeout := t }]) := by
  simp [commitTables, ht, UpdateKeyAccessTime, updateScan, commitCount,
    timeState, Nat.not_le.mpr hcap, testEnv]

/-- Commit onto the existing entry for the key: the timestamp is
refreshed. -/
theorem commitTables_rate_entry (tm t t0 keyid cap : Nat) (ht : t ≠ UINT32_MAX) :
    commitTables (testEnv tm) keyid { min_ops_timeout := t }
        (timeState cap [{ keyid := keyid, access_time := t0, timeout := t }]) =
      (KmError.ok, timeState cap
        [{ keyid := keyid, access_time := tm, timeout := t }]) := by
  simp [commitTables, ht, UpdateKeyAccessTime, updateScan, commitCount,
    timeState, testEnv]

/-- The time check against the single-entry table: the interval must not
exceed the elapsed time, in signed arithmetic. -/
theorem minTime_entry (tm t t0 tout keyid cap : Nat) :
    MinTimeBetweenOpsPassed (testEnv tm)
        (timeState cap [{ keyid := keyid, access_time := t0, timeout := tout }]).access_time_map
        t keyid =
      decide ((t : Int) ≤ (tm : Int) - (t0 : Int)) := by
  simp [MinTimeBetweenOpsPassed, LastKeyAccessTime, timeState, testEnv]

/-- C6: for a key with a minimum interval of `t` seconds, a first call on a
fresh table succeeds and records the access time; a second call strictly
less than `t` seconds later fails with KeyRateLimitExceeded; a second call
`t` or more seconds later (including exactly `t`) succeeds and refreshes
the record; and a key with no recorded entry passes the time check
trivially. -/
theorem claim_C6_min_time_between_ops (keyid cap t t0 t1 : Nat)
    (hcap : 0 < cap) (ht : t < UINT32_MAX) :
    (rateCall t0 t keyid (timeState cap []) =
      (KmError.ok, timeState cap
        [{ keyid := keyid, access_time := t0, timeout := t }]))
    ∧ ((t1 : Int) - (t0 : Int) < (t : Int) →
        (rateCall t1 t keyid (timeState cap
          [{ keyid := keyid, access_time := t0, timeout := t }])).1 =
        KmError.keyRateLimitExceeded)
    ∧ ((t : Int) ≤ (t1 : Int) - (t0 : Int) →
        rateCall t1 t keyid (timeState cap
          [{ keyid := keyid, access_time := t0, timeout := t }]) =
        (KmError.ok, timeState cap
          [{ keyid := keyid, access_time := t1, timeout := t }]))
    ∧ (∀ (env : Env) (m : AccessTimeMap) (tl k : Nat),
        LastKeyAccessTime m k = none → MinTimeBetweenOpsPassed env m tl k = true) := by
  refine ⟨?_, ?_, ?_, ?_⟩
  · rw [rateCall_eval,
      if_pos (show MinTimeBetweenOpsPassed (testEnv t0)
        (timeState cap []).access_time_map t keyid = true from rfl),
      commitTables_rate_empty t0 t keyid cap hcap (Nat.ne_of_lt ht)]
  · intro h
    rw [rateCall_eval, minTime_entry,
      if_neg (by simp only [decide_eq_true_eq]; omega)]
  · intro h
    rw [rateCall_eval, minTime_entry,
      if_pos (by simp only [decide_eq_true_eq]; exact h),
      commitTables_rate_entry t1 t t0 keyid cap (Nat.ne_of_lt ht)]
  · intro env m tl k h
    simp [MinTimeBetweenOpsPassed, h]

/-- Witness for C6 with interval 10: a first call at time 100 commits; a
second call at 105 is rate-limited; a second call at exactly 110
succeeds. -/
theorem claim_C6_witness :
    rateCall 100 10 7 (timeState 4 []) =
      (KmError.ok, timeState 4 [{ keyid := 7, access_time := 100, timeout := 10 }])
    ∧ (rateCall 105 10 7 (timeState 4
        [{ keyid := 7, access_time := 100, timeout := 10 }])).1 =
      KmError.keyRateLimitExceeded
    ∧ rateCall 110 10 7 (timeState 4
        [{ keyid := 7, access_time := 100, timeout := 10 }]) =
      (KmError.ok, timeState 4 [{ keyid := 7, access_time := 110, timeout := 10 }]) := by
  have h := claim_C6_min_time_between_ops 7 4 10 100 105 (by decide) (by decide)
  have h2 := claim_C6_min_time_between_ops 7 4 10 100 110 (by decide) (by decide)
  exact ⟨h.1, h.2.1 (by decide), h2.2.2.1 (by decide)⟩

/-! ## Pre-scan characterization and authentication-flag lemmas -/

/-- The pre-scan records no AUTH_TIMEOUT position iff the policy has no
AUTH_TIMEOUT entry. -/
theorem preScanFrom_timeout_none (l : List KmParam) :
    ∀ (pos : Nat) (acc : Option Nat × Option Nat × Option Nat),
      (preScanFrom pos acc l).1 = none ↔
        acc.1 = none ∧ ∀ p ∈ l, p.tag ≠ KmTag.authTimeout := by
  induction l with
  | nil => intro pos acc; simp [preScanFrom]
  | cons p rest ih =>
    intro pos acc
    simp only [preScanFrom]
    by_cases h1 : p.tag = KmTag.authTimeout
    · rw [if_pos h1, ih]
      simp [h1, List.forall_mem_cons]
    · rw [if_neg h1]
      by_cases h2 : p.tag = KmTag.userAuthType
      · rw [if_pos h2, ih]
        simp [h1, List.forall_mem_cons]
      · rw [if_neg h2]
        by_cases h3 : p.tag = KmTag.noAuthRequired
        · rw [if_pos h3, ih]
          simp [h1, List.forall_mem_cons]
        · rw [if_neg h3, ih]
          simp [h1, List.forall_mem_cons]

/-- The pre-scan records no USER_AUTH_TYPE position iff the policy has no
USER_AUTH_TYPE entry. -/
theorem preScanFrom_type_none (l : List KmParam) :
    ∀ (pos : Nat) (acc : Option Nat × Option Nat × Option Nat),
      (preScanFrom pos acc l).2.1 = none ↔
        acc.2.1 = none ∧ ∀ p ∈ l, p.tag ≠ KmTag.userAuthType := by
  induction l with
  | nil => intro pos acc; simp [preScanFrom]
  | cons p rest ih =>
    intro pos acc
    simp only [preScanFrom]
    by_cases h1 : p.tag = KmTag.authTimeout
    · rw [if_pos h1, ih]
      simp [h1, List.forall_mem_cons]
    · rw [if_neg h1]
      by_cases h2 : p.tag = KmTag.userAuthType
      · rw [if_pos h2, ih]
        simp [h2, List.forall_mem_cons]
      · rw [if_neg h2]
        by_cases h3 : p.tag = KmTag.noAuthRequired
        · rw [if_pos h3, ih]
          simp [h2, List.forall_mem_cons]
        · rw [if_neg h3, ih]
          simp [h2, List.forall_mem_cons]

/-- The pre-scan records no NO_AUTH_REQUIRED position iff the policy has no
NO_AUTH_REQUIRED entry. -/
theorem preScanFrom_noauth_none (l : List KmParam) :
    ∀ (pos : Nat) (acc : Option Nat × Option Nat × Option Nat),
      (preScanFrom pos acc l).2.2 = none ↔
        acc.2.2 = none ∧ ∀ p ∈ l, p.tag ≠ KmTag.noAuthRequired := by
  induction l with
  | nil => intro pos acc; simp [preScanFrom]
  | cons p rest ih =>
    intro pos acc
    simp only [preScanFrom]
    by_cases h1 : p.tag = KmTag.authTimeout
    · rw [if_pos h1, ih]
      simp [h1, List.forall_mem_cons]
    · rw [if_neg h1]
      by_cases h2 : p.tag = KmTag.userAuthType
      · rw [if_pos h2, ih]
        simp [h2, List.forall_mem_cons]
      · rw [if_neg h2]
        by_cases h3 : p.tag = KmTag.noAuthRequired
        · rw [if_pos h3, ih]
          simp [h3, List.forall_mem_cons]
        · rw [if_neg h3, ih]
          simp [h3, List.forall_mem_cons]

/-- With no USER_AUTH_TYPE index the token validator rejects every call,
whatever the token. -/
theorem authTokenMatches_type_none (env : Env)
    (auth_set operation_params : List KmParam) (user_secure_id : Nat)
    (auth_timeout_index : Option Nat) (op_handle : Nat) (is_begin_operation : Bool) :
    AuthTokenMatches env auth_set operation_params user_secure_id none
      auth_timeout_index op_handle is_begin_operation = false := by
  unfold AuthTokenMatches
  split
  · rfl
  · split_ifs <;> (try rfl) <;> (simp only []; split_ifs <;> rfl)

/-- One loop iteration never sets the matched flag when the validator
rejects the entry it would check. -/
theorem scanParam_matched_false (env : Env) (purpose keyid : Nat)
    (auth_set operation_params : List KmParam) (op_handle : Nat)
    (is_begin_operation : Bool) (idx : Option Nat × Option Nat × Option Nat)
    (st : KmState) (p : KmParam) (fl fl2 : ScanFlags)
    (h : scanParam env purpose keyid auth_set operation_params op_handle
      is_begin_operation idx st p fl = .ok fl2)
    (hm : p.tag = KmTag.userSecureId →
      AuthTokenMatches env auth_set operation_params p.long_integer idx.2.1 idx.1
        op_handle is_begin_operation = false)
    (hf : fl.auth_token_matched = false) :
    fl2.auth_token_matched = false := by
  cases htag : p.tag <;>
    simp only [scanParam, htag, reduceCtorEq, or_self, or_false, false_or,
      if_false, if_true, ite_false, ite_true, not_false_eq_true, reduceIte] at h <;>
    (try split_ifs at h) <;> (first | (cases h; simp_all) | simp_all)

/-- One loop iteration never clears the required flag. -/
theorem scanParam_required_mono (env : Env) (purpose keyid : Nat)
    (auth_set operation_params : List KmParam) (op_handle : Nat)
    (is_begin_operation : Bool) (idx : Option Nat × Option Nat × Option Nat)
    (st : KmState) (p : KmParam) (fl fl2 : ScanFlags)
    (h : scanParam env purpose keyid auth_set operation_params op_handle
      is_begin_operation idx st p fl = .ok fl2)
    (hf : fl.authentication_required = true) :
    fl2.authentication_required = true := by
  cases htag : p.tag <;>
    simp only [scanParam, htag, reduceCtorEq, or_self, or_false, false_or,
      if_false, if_true, ite_false, ite_true, not_false_eq_true, reduceIte] at h <;>
    (try split_ifs at h) <;> (first | (cases h; simp_all) | simp_all)

/-- Handling a USER_SECURE_ID entry when authentication is not deferred
sets the required flag. -/
theorem scanParam_required_set (env : Env) (purpose keyid : Nat)
    (auth_set operation_params : List KmParam) (op_handle : Nat)
    (is_begin_operation : Bool) (idx : Option Nat × Option Nat × Option Nat)
    (st : KmState) (p : KmParam) (fl fl2 : ScanFlags)
    (h : scanParam env purpose keyid auth_set operation_params op_handle
      is_begin_operation idx st p fl = .ok fl2)
    (htag : p.tag = KmTag.userSecureId)
    (hcond : ¬ can_skip_authentication is_begin_operation idx.1.isNone = true ∨
      findTag operation_params KmTag.authToken ≠ none) :
    fl2.authentication_required = true := by
  simp only [scanParam, htag, reduceCtorEq, or_self, or_false, false_or,
    if_false, if_true, ite_false, ite_true, not_false_eq_true, reduceIte] at h
  split_ifs at h <;> (first | (cases h; simp_all) | simp_all)

/-- When authentication can be deferred and no token was supplied, a loop
iteration leaves the required flag cleared. -/
theorem scanParam_required_skip (env : Env) (purpose keyid : Nat)
    (auth_set operation_params : List KmParam) (op_handle : Nat)
    (is_begin_operation : Bool) (idx : Option Nat × Option Nat × Option Nat)
    (st : KmState) (p : KmParam) (fl fl2 : ScanFlags)
    (h : scanParam env purpose keyid auth_set operation_params op_handle
      is_begin_operation idx st p fl = .ok fl2)
    (hskip : can_skip_authentication is_begin_operation idx.1.isNone = true)
    (htok : findTag operation_params KmTag.authToken = none)
    (hf : fl.authentication_required = false) :
    fl2.authentication_required = false := by
  cases htag : p.tag <;>
    simp only [scanParam, htag, reduceCtorEq, or_self, or_false, false_or,
      if_false, if_true, ite_false, ite_true, not_false_eq_true, reduceIte] at h <;>
    (try split_ifs at h) <;> (first | (cases h; simp_all) | simp_all)

/-- Lifting of `scanParam_matched_false` to the whole loop. -/
theorem authScan_matched_false (env : Env) (purpose keyid : Nat)
    (auth_set operation_params : List KmParam) (op_handle : Nat)
    (is_begin_operation : Bool) (idx : Option Nat × Option Nat × Option Nat)
    (st : KmState) (l : List KmParam) (fl fl2 : ScanFlags)
    (h : authScan env purpose keyid auth_set operation_params op_handle
      is_begin_operation idx st l fl = .ok fl2)
    (hm : ∀ p ∈ l, p.tag = KmTag.userSecureId →
      AuthTokenMatches env auth_set operation_params p.long_integer idx.2.1 idx.1
        op_handle is_begin_operation = false)
    (hf : fl.auth_token_matched = false) :
    fl2.auth_token_matched = false := by
  induction l generalizing fl with
  | nil =>
    simp only [authScan] at h
    cases h
    exact hf
  | cons p rest ih =>
    simp only [authScan] at h
    cases hp : scanParam env purpose keyid auth_set operation_params op_handle
        is_begin_operation idx st p fl with
    | error e => rw [hp] at h; cases h
    | ok flm =>
      rw [hp] at h
      exact ih flm h (fun q hq => hm q (List.mem_cons_of_mem _ hq))
        (scanParam_matched_false env purpose keyid auth_set operation_params
          op_handle is_begin_operation idx st p fl flm hp
          (hm p (List.mem_cons_self p rest)) hf)

/-- Lifting of `scanParam_required_mono` to the whole loop. -/
theorem authScan_required_mono (env : Env) (purpose keyid : Nat)
    (auth_set operation_params : List KmParam) (op_handle : Nat)
    (is_begin_operation : Bool) (idx : Option Nat × Option Nat × Option Nat)
    (st : KmState) (l : List KmParam) (fl fl2 : ScanFlags)
    (h : authScan env purpose keyid auth_set operation_params op_handle
      is_begin_operation idx st l fl = .ok fl2)
    (hf : fl.authentication_required = true) :
    fl2.authentication_required = true := by
  induction l generalizing fl with
  | nil =>
    simp only [authScan] at h
    cases h
    exact hf
  | cons p rest ih =>
    simp only [authScan] at h
    cases hp : scanParam env purpose keyid auth_set operation_params op_handle
        is_begin_operation idx st p fl with
    | error e => rw [hp] at h; cases h
    | ok flm =>
      rw [hp] at h
      exact ih flm h (scanParam_required_mono env purpose keyid auth_set
        operation_params op_handle is_begin_operation idx st p fl flm hp hf)

/-- A completed loop over a policy holding a USER_SECURE_ID entry, when
authentication is not deferred, ends with the required flag set. -/
theorem authScan_required_set (env : Env) (purpose keyid : Nat)
    (auth_set operation_params : List KmParam) (op_handle : Nat)
    (is_begin_operation : Bool) (idx : Option Nat × Option Nat × Option Nat)
    (st : KmState) (l : List KmParam) (fl fl2 : ScanFlags)
    (h : authScan env purpose keyid auth_set operation_params op_handle
      is_begin_operation idx st l fl = .ok fl2)
    (hsid : ∃ p ∈ l, p.tag = KmTag.userSecureId)
    (hcond : ¬ can_skip_authentication is_begin_operation idx.1.isNone = true ∨
      findTag operation_params KmTag.authToken ≠ none) :
    fl2.authentication_required = true := by
  induction l generalizing fl with
  | nil => simp at hsid
  | cons p rest ih =>
    simp only [authScan] at h
    cases hp : scanParam env purpose keyid auth_set operation_params op_handle
        is_begin_operation idx st p fl with
    | error e => rw [hp] at h; cases h
    | ok flm =>
      rw [hp] at h
      obtain ⟨w, hw, hwt⟩ := hsid
      rcases List.mem_cons.mp hw with h1 | h1
      · have hpt : p.tag = KmTag.userSecureId := by rw [← h1]; exact hwt
        exact authScan_required_mono env purpose keyid auth_set operation_params
          op_handle is_begin_operation idx st rest flm fl2 h
          (scanParam_required_set env purpose keyid auth_set operation_params
            op_handle is_begin_operation idx st p fl flm hp hpt hcond)
      · exact ih flm h ⟨w, h1, hwt⟩

/-- A completed loop leaves the required flag cleared when authentication
can be deferred and no token was supplied. -/
theorem authScan_required_skip (env : Env) (purpose keyid : Nat)
    (auth_set operation_params : List KmParam) (op_handle : Nat)
    (is_begin_operation : Bool) (idx : Option Nat × Option Nat × Option Nat)
    (st : KmState) (l : List KmParam) (fl fl2 : ScanFlags)
    (h : authScan env purpose keyid auth_set operation_params op_handle
      is_begin_operation idx st l fl = .ok fl2)
    (hskip : can_skip_authentication is_begin_operation idx.1.isNone = true)
    (htok : findTag operation_params KmTag.authToken = none)
    (hf : fl.authentication_required = false) :
    fl2.authentication_required = false := by
  induction l generalizing fl with
  | nil =>
    simp only [authScan] at h
    cases h
    exact hf
  | cons p rest ih =>
    simp only [authScan] at h
    cases hp : scanParam env purpose keyid auth_set operation_params op_handle
        is_begin_operation idx st p fl with
    | error e => rw [hp] at h; cases h
    | ok flm =>
      rw [hp] at h
      exact ih flm h (scanParam_required_skip env purpose keyid auth_set
        operation_params op_handle is_begin_operation idx st p fl flm hp
        hskip htok hf)

/-! ## C4: deferral of token validation -/

/-- C4: for a key whose policy holds a USER_SECURE_ID entry and no
NO_AUTH_REQUIRED marker, token validation is skipped exactly in the
begin-operation call of a key without AUTH_TIMEOUT when no AUTH_TOKEN is
supplied: in that case the call never returns KeyUserNotAuthenticated; in
every other case, a completed tag scan with a missing or non-matching
token ends in KeyUserNotAuthenticated. -/
theorem claim_C4_deferred_authentication (env : Env) (purpose keyid : Nat)
    (auth_set operation_params : List KmParam) (op_handle : Nat) (st : KmState)
    (hsid : ∃ p ∈ auth_set, p.tag = KmTag.userSecureId)
    (hnoauth : ∀ p ∈ auth_set, p.tag ≠ KmTag.noAuthRequired) :
    ((∀ p ∈ auth_set, p.tag ≠ KmTag.authTimeout) →
      findTag operation_params KmTag.authToken = none →
      (AuthorizeOperation env purpose keyid auth_set operation_params op_handle
        true st).1 ≠ KmError.keyUserNotAuthenticated)
    ∧ (∀ (is_begin_operation : Bool) (fl : ScanFlags),
        (¬ can_skip_authentication is_begin_operation (preScan auth_set).1.isNone = true ∨
          findTag operation_params KmTag.authToken ≠ none) →
        (∀ p ∈ auth_set, p.tag = KmTag.userSecureId →
          AuthTokenMatches env auth_set operation_params p.long_integer
            (preScan auth_set).2.1 (preScan auth_set).1 op_handle
            is_begin_operation = false) →
        authorized_purpose purpose auth_set = KmError.ok →
        authScan env purpose keyid auth_set operation_params op_handle
          is_begin_operation (preScan auth_set) st auth_set {} = .ok fl →
        (AuthorizeOperation env purpose keyid auth_set operation_params op_handle
          is_begin_operation st).1 = KmError.keyUserNotAuthenticated) := by
  constructor
  · intro htimeout htok
    by_cases h0 : authorized_purpose purpose auth_set = KmError.ok
    · cases hscan : authScan env purpose keyid auth_set operation_params op_handle
          true (preScan auth_set) st auth_set {} with
      | error e =>
        rw [authorize_of_scan_error env purpose keyid auth_set operation_params
          op_handle true st e h0 hscan]
        have hmem := authScan_error_mem env purpose keyid auth_set operation_params
          op_handle true (preScan auth_set) st auth_set {} e hscan
        rcases hmem with h | h | h | h | h <;> (rw [h]; intro hc; cases hc)
      | ok fl =>
        have hnone : (preScan auth_set).1 = none :=
          (preScanFrom_timeout_none auth_set 0 (none, none, none)).mpr ⟨rfl, htimeout⟩
        have hskip : can_skip_authentication true (preScan auth_set).1.isNone = true := by
          rw [hnone]
          rfl
        have hreq : fl.authentication_required = false :=
          authScan_required_skip env purpose keyid auth_set operation_params
            op_handle true (preScan auth_set) st auth_set {} fl hscan hskip htok rfl
        rw [authorize_of_scan_ok env purpose keyid auth_set operation_params
          op_handle true st fl h0 hscan]
        rw [if_neg (by simp [hreq])]
        by_cases hn : (!fl.found_caller_nonce &&
            (findTag operation_params KmTag.nonce).isSome) = true
        · rw [if_pos hn]
          intro hc
          cases hc
        · rw [if_neg hn]
          intro hc
          have hne : (commitTables env keyid fl st).1 ≠ KmError.ok := by
            rw [hc]
            intro hx
            cases hx
          have := (commitTables_error env keyid fl st hne).1
          rw [hc] at this
          cases this
    · rw [authorize_of_purpose_error env purpose keyid auth_set operation_params
        op_handle true st h0]
      rcases authorized_purpose_cases purpose auth_set with h | h | h
      · exact absurd h h0
      · rw [h]; intro hc; cases hc
      · rw [h]; intro hc; cases hc
  · intro is_begin_operation fl hcond hmfalse h0 hscan
    have hreq : fl.authentication_required = true :=
      authScan_required_set env purpose keyid auth_set operation_params op_handle
        is_begin_operation (preScan auth_set) st auth_set {} fl hscan hsid hcond
    have hmat : fl.auth_token_matched = false :=
      authScan_matched_false env purpose keyid auth_set operation_params op_handle
        is_begin_operation (preScan auth_set) st auth_set {} fl hscan hmfalse rfl
    rw [authorize_of_scan_ok env purpose keyid auth_set operation_params op_handle
      is_begin_operation st fl h0 hscan, if_pos (by simp [hreq, hmat])]

/-- Witness for C4: for the per-operation key, begin with no token is
admitted past authentication (no KeyUserNotAuthenticated), while the same
call at a non-begin step without a token is denied with
KeyUserNotAuthenticated. -/
theorem claim_C4_witness :
    (AuthorizeOperation (testEnv 100) KM_PURPOSE_SIGN 7 policy_per_op [] 0 true
      (countState 4 [])).1 ≠ KmError.keyUserNotAuthenticated
    ∧ (AuthorizeOperation (testEnv 100) KM_PURPOSE_SIGN 7 policy_per_op [] 0 false
      (countState 4 [])).1 = KmError.keyUserNotAuthenticated := by
  have h := claim_C4_deferred_authentication (testEnv 100) KM_PURPOSE_SIGN 7
    policy_per_op [] 0 (countState 4 []) (by decide) (by decide)
  exact ⟨h.1 (by decide) rfl,
    h.2 false { authentication_required := true } (Or.inl (by decide))
      (by decide) rfl rfl⟩

/-! ## C10: a key with USER_SECURE_ID but no USER_AUTH_TYPE -/

/-- C10: for a key policy holding a USER_SECURE_ID entry but neither a
NO_AUTH_REQUIRED marker nor a USER_AUTH_TYPE entry, every AuthTokenMatches
call made for the key returns false — whatever token is presented — so a
call in which authentication is not deferred and whose tag scan completes
returns KeyUserNotAuthenticated. -/
theorem claim_C10_missing_auth_type (env : Env) (purpose keyid : Nat)
    (auth_set operation_params : List KmParam) (op_handle : Nat) (ib : Bool)
    (st : KmState) (fl : ScanFlags)
    (hsid : ∃ p ∈ auth_set, p.tag = KmTag.userSecureId)
    (hnoauth : ∀ p ∈ auth_set, p.tag ≠ KmTag.noAuthRequired)
    (hnotype : ∀ p ∈ auth_set, p.tag ≠ KmTag.userAuthType)
    (hcond : ¬ can_skip_authentication ib (preScan auth_set).1.isNone = true ∨
      findTag operation_params KmTag.authToken ≠ none)
    (h0 : authorized_purpose purpose auth_set = KmError.ok)
    (hscan : authScan env purpose keyid auth_set operation_params op_handle ib
      (preScan auth_set) st auth_set {} = .ok fl) :
    (∀ (sid : Nat) (w : Option Nat),
      AuthTokenMatches env auth_set operation_params sid (preScan auth_set).2.1 w
        op_handle ib = false)
    ∧ (AuthorizeOperation env purpose keyid auth_set operation_params op_handle
        ib st).1 = KmError.keyUserNotAuthenticated := by
  have htn : (preScan auth_set).2.1 = none :=
    (preScanFrom_type_none auth_set 0 (none, none, none)).mpr ⟨rfl, hnotype⟩
  have hatm : ∀ (sid : Nat) (w : Option Nat),
      AuthTokenMatches env auth_set operation_params sid (preScan auth_set).2.1 w
        op_handle ib = false := by
    intro sid w
    rw [htn]
    exact authTokenMatches_type_none env auth_set operation_params sid w op_handle ib
  refine ⟨hatm, ?_⟩
  have hreq : fl.authentication_required = true :=
    authScan_required_set env purpose keyid auth_set operation_params op_handle
      ib (preScan auth_set) st auth_set {} fl hscan hsid hcond
  have hmat : fl.auth_token_matched = false :=
    authScan_matched_false env purpose keyid auth_set operation_params op_handle
      ib (preScan auth_set) st auth_set {} fl hscan
      (fun p _ _ => hatm p.long_integer (preScan auth_set).1) rfl
  rw [authorize_of_scan_ok env purpose keyid auth_set operation_params op_handle
    ib st fl h0 hscan, if_pos (by simp [hreq, hmat])]

/-- Witness for C10: with the timed key lacking USER_AUTH_TYPE, even a
present, well-sized, authentic token with matching identity is rejected and
the call is denied with KeyUserNotAuthenticated. -/
theorem claim_C10_witness :
    AuthTokenMatches (testEnv 100) policy_no_type
      [{ tag := KmTag.authToken, blob := token_blob }] 42
      (preScan policy_no_type).2.1 (preScan policy_no_type).1 5 true = false
    ∧ (AuthorizeOperation (testEnv 100) KM_PURPOSE_SIGN 7 policy_no_type
        [{ tag := KmTag.authToken, blob := token_blob }] 5 true
        (countState 4 [])).1 = KmError.keyUserNotAuthenticated := by
  have h := claim_C10_missing_auth_type (testEnv 100) KM_PURPOSE_SIGN 7
    policy_no_type [{ tag := KmTag.authToken, blob := token_blob }] 5 true
    (countState 4 []) { authentication_required := true }
    (by decide) (by decide) (by decide) (Or.inl (by decide)) rfl rfl
  exact ⟨h.1 42 (preScan policy_no_type).1, h.2⟩

end Keymaster
